import Mathlib

set_option maxRecDepth 4000

/-! Verification development for the economic-freedom web application
(`src/dynamic_server.mjs`).  The route handlers, the template renderer and
the SQL queries they issue are shallowly embedded below.  Database cell
values, as surfaced to JavaScript by the sqlite3 driver, are modelled by
`JSVal`; SQLite numeric values (INTEGER and REAL) are modelled as exact
terminating decimals (`Dec`). -/

/-! ## Decimal numbers

JavaScript numbers are IEEE doubles, and every finite double is a
terminating decimal, so numbers are modelled as exact decimals
`num / 10 ^ exp`.  The representation is kept canonical (`exp = 0`, or
`num` not a multiple of 10) so that representation equality coincides
with value equality, as JavaScript strict equality and SQLite value
comparison require. -/

def decCanon (p : Int × Nat) : Prop := p.2 = 0 ∨ ¬ p.1 % 10 = 0

instance decCanonDecidable (p : Int × Nat) : Decidable (decCanon p) := by
  unfold decCanon
  infer_instance

def Dec : Type := { p : Int × Nat // decCanon p }

instance : DecidableEq Dec := fun a b => decidable_of_iff _ Subtype.ext_iff.symm

def Dec.num (d : Dec) : Int := d.val.1

def Dec.exp (d : Dec) : Nat := d.val.2

/-- Strip factors of 10 from `n`, lowering the exponent (fuel-recursive). -/
def decStrip : Nat → Int → Nat → Int × Nat
  | 0, n, e => (n, e)
  | fuel + 1, n, e =>
      match e with
      | 0 => (n, 0)
      | e' + 1 => if n % 10 = 0 then decStrip fuel (n / 10) e' else (n, e' + 1)

def Dec.norm (n : Int) (e : Nat) : Dec :=
  ⟨decStrip e n e, by
    have key : ∀ (fuel : Nat) (n : Int) (e : Nat), e ≤ fuel → decCanon (decStrip fuel n e) := by
      intro fuel
      induction fuel with
      | zero =>
          intro n e he
          have he0 : e = 0 := Nat.le_zero.mp he
          subst he0
          exact Or.inl rfl
      | succ f ih =>
          intro n e he
          cases e with
          | zero => exact Or.inl rfl
          | succ e' =>
              by_cases h : n % 10 = 0
              · rw [show decStrip (f + 1) n (e' + 1) = decStrip f (n / 10) e' from by
                  simp [decStrip, h]]
                exact ih _ _ (by omega)
              · rw [show decStrip (f + 1) n (e' + 1) = (n, e' + 1) from by simp [decStrip, h]]
                exact Or.inr h
    exact key e n e (le_refl e)⟩

def Dec.ofInt (n : Int) : Dec := ⟨(n, 0), Or.inl rfl⟩

instance (n : Nat) : OfNat Dec n := ⟨Dec.ofInt n⟩

instance : OfScientific Dec :=
  ⟨fun m b e => if b then Dec.norm m e else Dec.ofInt (m * 10 ^ e)⟩

def Dec.le (a b : Dec) : Bool := decide (a.num * 10 ^ b.exp ≤ b.num * 10 ^ a.exp)

def Dec.neg (a : Dec) : Dec := Dec.norm (-a.num) a.exp

def Dec.mulPow10 (a : Dec) (k : Nat) : Dec := Dec.norm (a.num * 10 ^ k) a.exp

def Dec.divPow10 (a : Dec) (k : Nat) : Dec := Dec.norm a.num (a.exp + k)

/-- A JavaScript-visible database value: SQL NULL, a number, or a text. -/
inductive JSVal where
  | null : JSVal
  | num : Dec → JSVal
  | str : String → JSVal
deriving DecidableEq

/-- One row of the `economic_data` table, with the four columns the
application reads (`economic_freedom_summary_index` is `freedomIndex`). -/
structure Row where
  country : JSVal
  year : JSVal
  rank : JSVal
  freedomIndex : JSVal
deriving DecidableEq

/-! ## Decimal printing of numbers -/

def digitChar (n : Nat) : Char := Char.ofNat (48 + n)

def natDigitsAux : Nat → Nat → List Char → List Char
  | 0, _, acc => acc
  | fuel + 1, n, acc =>
      if n < 10 then digitChar n :: acc
      else natDigitsAux fuel (n / 10) (digitChar (n % 10) :: acc)

def natStr (n : Nat) : String := String.mk (natDigitsAux (n + 1) n [])

def intStr (i : Int) : String :=
  if i < 0 then "-" ++ natStr i.natAbs else natStr i.natAbs

def padZeros (k : Nat) (s : String) : String :=
  String.mk (List.replicate (k - s.length) '0') ++ s

/-- JavaScript number-to-string: integers print without a fractional
part; other values print their exact decimal expansion, which has no
trailing zeros by canonicity (`8.1` prints as `"8.1"`). -/
def numToStr (d : Dec) : String :=
  if d.exp = 0 then intStr d.num
  else
    (if d.num < 0 then "-" else "") ++ natStr (d.num.natAbs / 10 ^ d.exp) ++ "." ++
      padZeros d.exp (natStr (d.num.natAbs % 10 ^ d.exp))

/-! ## JavaScript `Number()` coercion

`jsToNumber` models `Number(s)` on the finite decimal forms
(optional sign, integer part, fractional part, exponent); `none` stands
for NaN.  The features of `Number()` not touched by the routes' key
matching (hexadecimal literals, `Infinity`, surrounding whitespace) are
outside the model. -/

def natOfDigits (ds : List Char) : Nat :=
  ds.foldl (fun a c => a * 10 + (c.toNat - 48)) 0

def mantissaOf (ip fp : List Char) : Dec :=
  Dec.norm ((natOfDigits ip : Int) * 10 ^ fp.length + (natOfDigits fp : Int)) fp.length

def expApply (m : Dec) (neg : Bool) (ds : List Char) : Option Dec :=
  if ds = [] ∨ ¬ ds.all Char.isDigit then none
  else some (if neg then m.divPow10 (natOfDigits ds) else m.mulPow10 (natOfDigits ds))

def finishNum (m : Dec) : List Char → Option Dec
  | [] => some m
  | c :: t =>
      if c = 'e' ∨ c = 'E' then
        match t with
        | '+' :: ds => expApply m false ds
        | '-' :: ds => expApply m true ds
        | ds => expApply m false ds
      else none

def parseDec (cs : List Char) : Option Dec :=
  let ip := cs.takeWhile Char.isDigit
  let r1 := cs.dropWhile Char.isDigit
  match r1 with
  | '.' :: t =>
      let fp := t.takeWhile Char.isDigit
      let r2 := t.dropWhile Char.isDigit
      if ip = [] ∧ fp = [] then none else finishNum (mantissaOf ip fp) r2
  | _ => if ip = [] then none else finishNum (mantissaOf ip []) r1

def jsToNumber (s : String) : Option Dec :=
  match s.data with
  | [] => some 0
  | '-' :: rest => (parseDec rest).map (fun q => Dec.neg q)
  | '+' :: rest => parseDec rest
  | cs => parseDec cs

/-! ## Case folding

SQLite's built-in `lower()` folds only the ASCII range; JavaScript's
`toLowerCase()` follows Unicode.  `jsLowerChar` models the latter on the
ASCII and Latin-1 uppercase letters and is the identity elsewhere (the
identity approximation is never load-bearing: every theorem below that
involves `jsLower` either instantiates it on Latin-1 text or only uses
that it agrees with `asciiLower` on ASCII). -/

def asciiLowerChar (c : Char) : Char :=
  if 65 ≤ c.toNat ∧ c.toNat ≤ 90 then Char.ofNat (c.toNat + 32) else c

def asciiLower (s : String) : String := String.mk (s.data.map asciiLowerChar)

def jsLowerChar (c : Char) : Char :=
  if 65 ≤ c.toNat ∧ c.toNat ≤ 90 then Char.ofNat (c.toNat + 32)
  else if 192 ≤ c.toNat ∧ c.toNat ≤ 222 ∧ c.toNat ≠ 215 then Char.ofNat (c.toNat + 32)
  else c

def jsLower (s : String) : String := String.mk (s.data.map jsLowerChar)

/-- JavaScript `String(v)` on a database value. -/
def jsToString (v : JSVal) : String :=
  match v with
  | .null => "null"
  | .num q => numToStr q
  | .str s => s

/-- The table cells are built with `v ?? 'N/A'` before interpolation. -/
def dispNA (v : JSVal) : String :=
  match v with
  | .null => "N/A"
  | _ => jsToString v

/-- `Number(v ?? 0)`, with `none` for NaN. -/
def toNum0 (v : JSVal) : Option Dec :=
  match v with
  | .null => some (Dec.ofInt 0)
  | .num q => some q
  | .str s => jsToNumber s

/-! ## SQLite comparison and ordering -/

/-- SQLite's total order on values: NULL < numbers < text, numbers by
value, text bytewise (UTF-8 byte order agrees with code-point order). -/
def sqlValLe (a b : JSVal) : Bool :=
  match a, b with
  | .null, _ => true
  | .num _, .null => false
  | .num x, .num y => Dec.le x y
  | .num _, .str _ => true
  | .str _, .null => false
  | .str _, .num _ => false
  | .str x, .str y => decide (x ≤ y)

/-- Insertion of `a` into a list sorted by `le` (stable: `a` goes before
the first element it is `le`-before). -/
def insertLe {α : Type} (le : α → α → Bool) (a : α) : List α → List α
  | [] => [a]
  | b :: l => if le a b then a :: b :: l else b :: insertLe le a l

/-- Insertion sort by a boolean comparison; models `ORDER BY` and the
stable JavaScript `Array.prototype.sort`. -/
def sortLe {α : Type} (le : α → α → Bool) : List α → List α
  | [] => []
  | a :: l => insertLe le a (sortLe le l)

/-- `SELECT DISTINCT x ... ORDER BY x`: the deduplicated values, sorted
ascending in SQLite value order. -/
def distinctSorted (l : List JSVal) : List JSVal := sortLe sqlValLe l.dedup

def distinctYears (db : List Row) : List JSVal := distinctSorted (db.map (fun r => r.year))

def distinctCountries (db : List Row) : List JSVal := distinctSorted (db.map (fun r => r.country))

def distinctRanks (db : List Row) : List JSVal := distinctSorted (db.map (fun r => r.rank))

/-- Modelled from the spec: the schema of `economic_data` is not under
`src/` (only spec section 6 describes it, giving numeric `year`/`rank`
columns), so binding the text route parameter in `WHERE year = ?` and
`WHERE rank = ?` is modelled with numeric affinity applied to the
parameter: a numeric-looking text operand is converted to a number
before comparison, as SQLite does against a numeric-affinity column.
The empty text is not numeric-looking to SQLite. -/
def sqlTextToNum (s : String) : Option Dec :=
  if s = "" then none else jsToNumber s

/-- `column = ?` with the text parameter `p`, under numeric affinity
(see `sqlTextToNum`).  `NULL = x` is NULL, hence filtered out. -/
def sqlEqNum (v : JSVal) (p : String) : Bool :=
  match v, sqlTextToNum p with
  | .num x, some q => decide (x = q)
  | .num _, none => false
  | .str s, none => decide (s = p)
  | .str _, some _ => false
  | .null, _ => false

/-- SQLite `lower(v)`: NULL stays NULL, other values are rendered as text
and ASCII-folded. -/
def sqlLowerVal (v : JSVal) : Option String :=
  match v with
  | .null => none
  | .num q => some (asciiLower (numToStr q))
  | .str s => some (asciiLower s)

/-- The country detail filter `WHERE lower(country) = lower(?)`. -/
def countryMatches (r : Row) (p : String) : Bool :=
  match sqlLowerVal r.country with
  | none => false
  | some s => decide (s = asciiLower p)

/-- `ORDER BY FreedomIndex DESC, year DESC` (country route). -/
def rowLeCountry (r1 r2 : Row) : Bool :=
  if r1.freedomIndex = r2.freedomIndex then sqlValLe r2.year r1.year
  else sqlValLe r2.freedomIndex r1.freedomIndex

/-- `ORDER BY FreedomIndex DESC, country ASC` (year route). -/
def rowLeYear (r1 r2 : Row) : Bool :=
  if r1.freedomIndex = r2.freedomIndex then sqlValLe r1.country r2.country
  else sqlValLe r2.freedomIndex r1.freedomIndex

/-- `ORDER BY year` (rank route). -/
def rowLeRank (r1 r2 : Row) : Bool := sqlValLe r1.year r2.year

def recordsForYear (db : List Row) (p : String) : List Row :=
  sortLe rowLeYear (db.filter (fun r => sqlEqNum r.year p))

def recordsForCountry (db : List Row) (p : String) : List Row :=
  sortLe rowLeCountry (db.filter (fun r => countryMatches r p))

def recordsForRank (db : List Row) (p : String) : List Row :=
  sortLe rowLeRank (db.filter (fun r => sqlEqNum r.rank p))

/-! ## JavaScript array search -/

/-- `Array.prototype.indexOf` (strict equality; `-1` when absent). -/
def jsIndexOfAux {α : Type} [DecidableEq α] (a : α) : List α → Nat → Int
  | [], _ => -1
  | x :: xs, k => if x = a then (k : Int) else jsIndexOfAux a xs (k + 1)

def jsIndexOf {α : Type} [DecidableEq α] (l : List α) (a : α) : Int :=
  jsIndexOfAux a l 0

/-- `Array.prototype.findIndex` (`-1` when no element satisfies `p`). -/
def jsFindIndexAux {α : Type} (p : α → Bool) : List α → Nat → Int
  | [], _ => -1
  | x :: xs, k => if p x then (k : Int) else jsFindIndexAux p xs (k + 1)

def jsFindIndex {α : Type} (p : α → Bool) (l : List α) : Int :=
  jsFindIndexAux p l 0

/-! ## Circular previous/next keys

All three parametric routes compute
`keys[(idx - 1 + keys.length) % keys.length]` and
`keys[(idx + 1) % keys.length]` (source lines 68-69, 128-129, 183-184);
the arithmetic is JavaScript integer arithmetic, hence over `Int`. -/

def circPrev (keys : List JSVal) (i : Nat) : JSVal :=
  keys.getD (((i : Int) - 1 + keys.length) % keys.length).toNat JSVal.null

def circNext (keys : List JSVal) (i : Nat) : JSVal :=
  keys.getD (((i : Int) + 1) % keys.length).toNat JSVal.null

/-! ## The template renderer

`renderTemplate` embeds the source's

```
rendered = rendered.replace(new RegExp('\x7b\x7b' + key + '\x7d\x7d', 'g'), value ?? '')
```

For the identifier keys the application uses the pattern is a literal
string, but the *replacement* string follows JavaScript's replacement
patterns: `$$` is a dollar, `$&` the matched text, a dollar-backquote
the text before the match, a dollar-quote the text after it, and any
other `$`-sequence is literal (the pattern has no capture groups).
`expandRepl m b a repl` expands `repl` with matched text `m`, preceding
text `b` and following text `a`. -/

def backquoteChar : Char := Char.ofNat 96

def quoteChar : Char := Char.ofNat 39

def expandRepl (m b a : List Char) : List Char → List Char
  | [] => []
  | c :: rest =>
      if c = '$' then
        match rest with
        | [] => ['$']
        | d :: rest2 =>
            if d = '$' then '$' :: expandRepl m b a rest2
            else if d = '&' then m ++ expandRepl m b a rest2
            else if d = backquoteChar then b ++ expandRepl m b a rest2
            else if d = quoteChar then a ++ expandRepl m b a rest2
            else '$' :: expandRepl m b a (d :: rest2)
      else c :: expandRepl m b a rest

/-- Split `s` at the first occurrence of `pat`: `some (before, after)`
with `s = before ++ pat ++ after`, or `none` when `pat` does not occur. -/
def splitFirst (pat : List Char) : List Char → Option (List Char × List Char)
  | [] => if pat = [] then some ([], []) else none
  | c :: rest =>
      if pat.isPrefixOf (c :: rest) then some ([], (c :: rest).drop pat.length)
      else
        match splitFirst pat rest with
        | none => none
        | some (b, a) => some (c :: b, a)

/-- Global replacement, scanning left to right without rescanning
replaced text; `done` is the already-consumed part of the original
string (needed by the replacement patterns). -/
def gsubAux (pat repl : List Char) : Nat → List Char → List Char → List Char
  | 0, _, s => s
  | fuel + 1, done, s =>
      match splitFirst pat s with
      | none => s
      | some (b, a) =>
          b ++ expandRepl pat (done ++ b) a repl ++ gsubAux pat repl fuel (done ++ b ++ pat) a

/-- `s.replace(new RegExp(pat, 'g'), repl)` for a literal pattern. -/
def jsReplaceAll (pat repl s : List Char) : List Char :=
  gsubAux pat repl (s.length + 1) [] s

/-- Literal (verbatim) global replacement, with no replacement-pattern
expansion. -/
def litAux (pat repl : List Char) : Nat → List Char → List Char
  | 0, s => s
  | fuel + 1, s =>
      match splitFirst pat s with
      | none => s
      | some (b, a) => b ++ repl ++ litAux pat repl fuel a

def replaceAllVerbatim (pat repl s : List Char) : List Char :=
  litAux pat repl (s.length + 1) s

def obrChar : Char := Char.ofNat 123

def cbrChar : Char := Char.ofNat 125

/-- The token for a key: two opening braces, the key, two closing braces. -/
def tokenOf (key : String) : List Char :=
  obrChar :: obrChar :: key.data ++ [cbrChar, cbrChar]

def valOrEmpty : Option String → List Char
  | none => []
  | some s => s.data

/-- `renderTemplate` from the source: one global replace per data entry,
in entry order, each pass operating on the previous pass's output. -/
def renderTemplate (templateContent : List Char) (data : List (String × Option String)) : List Char :=
  data.foldl (fun rendered kv => jsReplaceAll (tokenOf kv.1) (valOrEmpty kv.2) rendered) templateContent

/-- Following the spec's words, for comparison with `renderTemplate`:
every occurrence of each known token is replaced by the key's value
verbatim (empty for a null value), pass by pass. -/
def renderVerbatimSpec (templateContent : List Char) (data : List (String × Option String)) : List Char :=
  data.foldl (fun rendered kv => replaceAllVerbatim (tokenOf kv.1) (valOrEmpty kv.2) rendered) templateContent

/-- A value contains no dollar sign, so replacement-pattern expansion
cannot trigger on it. -/
def noDollar : Option String → Bool
  | none => true
  | some s => s.data.all (fun c => c ≠ '$')

/-! ## URI encoding and JSON serialization -/

def hexUpChar (n : Nat) : Char :=
  if n < 10 then Char.ofNat (48 + n) else Char.ofNat (55 + n)

def hexLowChar (n : Nat) : Char :=
  if n < 10 then Char.ofNat (48 + n) else Char.ofNat (87 + n)

def utf8Bytes (c : Char) : List Nat :=
  let n := c.toNat
  if n < 128 then [n]
  else if n < 2048 then [192 + n / 64, 128 + n % 64]
  else if n < 65536 then [224 + n / 4096, 128 + (n / 64) % 64, 128 + n % 64]
  else [240 + n / 262144, 128 + (n / 4096) % 64, 128 + (n / 64) % 64, 128 + n % 64]

/-- The characters `encodeURIComponent` leaves unescaped. -/
def isUriUnreserved (c : Char) : Bool :=
  c.isAlpha || c.isDigit || ['-', '_', '.', '!', '~', '*', quoteChar, '(', ')'].contains c

def pctEncodeChar (c : Char) : List Char :=
  (utf8Bytes c).foldr (fun b acc => '%' :: hexUpChar (b / 16) :: hexUpChar (b % 16) :: acc) []

def encodeURIComponent (s : String) : String :=
  String.mk (s.data.foldr (fun c acc => (if isUriUnreserved c then [c] else pctEncodeChar c) ++ acc) [])

def jsonEscChar (c : Char) : List Char :=
  if c = '"' then ['\\', '"']
  else if c = '\\' then ['\\', '\\']
  else if c = Char.ofNat 10 then ['\\', 'n']
  else if c = Char.ofNat 13 then ['\\', 'r']
  else if c = Char.ofNat 9 then ['\\', 't']
  else if c = Char.ofNat 8 then ['\\', 'b']
  else if c = Char.ofNat 12 then ['\\', 'f']
  else if c.toNat < 32 then ['\\', 'u', '0', '0', hexLowChar (c.toNat / 16), hexLowChar (c.toNat % 16)]
  else [c]

def jsonEscape (s : String) : String :=
  String.mk (s.data.foldr (fun c a => jsonEscChar c ++ a) [])

/-- `JSON.stringify` of one array element. -/
def jsonOfVal : JSVal → String
  | .null => "null"
  | .num q => numToStr q
  | .str s => "\"" ++ jsonEscape s ++ "\""

def jsonOfNum : Option Dec → String
  | none => "null"
  | some q => numToStr q

def jsonArray (xs : List String) : String :=
  "[" ++ String.intercalate "," xs ++ "]"

def jsonLabelsText (ls : List JSVal) : String := jsonArray (ls.map jsonOfVal)

def jsonStrLabelsText (ls : List String) : String :=
  jsonArray (ls.map (fun s => "\"" ++ jsonEscape s ++ "\""))

def jsonValuesText (vs : List (Option Dec)) : String := jsonArray (vs.map jsonOfNum)

/-! ## Chart arrays -/

/-- `String(r.country).replace(/"/g, '\\"')` from the year route. -/
def escQuotes (s : String) : String :=
  String.mk (s.data.foldr (fun c a => (if c = '"' then ['\\', '"'] else [c]) ++ a) [])

/-- The year route's chart comparator
`(a, b) => Number(b.FreedomIndex ?? 0) - Number(a.FreedomIndex ?? 0)`
(descending by numeric index; a NaN key is treated as 0, matching the
engines' treatment of a NaN comparator result as no reordering). -/
def jsNumDescLe (r1 r2 : Row) : Bool :=
  Dec.le ((toNum0 r2.freedomIndex).getD (Dec.ofInt 0)) ((toNum0 r1.freedomIndex).getD (Dec.ofInt 0))

/-- `rows.slice().sort(cmp).slice(0, 10)`: the top 10 rows by freedom
index, descending. -/
def yearTop (rows : List Row) : List Row := (sortLe jsNumDescLe rows).take 10

def yearChartLabels (rows : List Row) : List String :=
  (yearTop rows).map (fun r => escQuotes (jsToString r.country))

def yearChartValues (rows : List Row) : List (Option Dec) :=
  (yearTop rows).map (fun r => toNum0 r.freedomIndex)

/-- Country and rank routes: one label per detail row (`r.year`). -/
def rowChartLabels (rows : List Row) : List JSVal := rows.map (fun r => r.year)

/-- Country and rank routes: one value per detail row
(`Number(r.FreedomIndex ?? 0)`). -/
def rowChartValues (rows : List Row) : List (Option Dec) :=
  rows.map (fun r => toNum0 r.freedomIndex)

/-! ## Table fragments (whitespace as in the source template literals) -/

def trYear (r : Row) : String :=
  "\n                <tr>\n                    <td>" ++ dispNA r.country ++
    "</td>\n                    <td>" ++ dispNA r.freedomIndex ++
    "</td>\n                </tr>\n            "

def trCountry (r : Row) : String :=
  "\n                <tr>\n                    <td>" ++ dispNA r.year ++
    "</td>\n                    <td>" ++ dispNA r.freedomIndex ++
    "</td>\n                </tr>\n            "

def trRank (r : Row) : String :=
  "\n                <tr>\n                    <td>" ++ dispNA r.year ++
    "</td>\n                    <td>" ++ dispNA r.country ++
    "</td>\n                    <td>" ++ dispNA r.freedomIndex ++
    "</td>\n                </tr>\n            "

/-! ## Route handlers

A route's outcome with no storage error is either a 404 with its
plain-text body or a 200 whose rendered page is `renderTemplate`
applied to the route's template file and the data mapping below; the
template files live outside `src/`, so the 200 outcome carries the data
mapping. -/

inductive RouteResult where
  | notFound (msg : String)
  | ok (data : List (String × Option String))
deriving DecidableEq

def resultData : RouteResult → Option (List (String × Option String))
  | .notFound _ => none
  | .ok d => some d

def lookupField (data : List (String × Option String)) (k : String) : Option (Option String) :=
  match data with
  | [] => none
  | (k2, v) :: rest => if k2 = k then some v else lookupField rest k

/-- `isNaN(Number(yearParam)) ? yearParam : Number(yearParam)` (line 63). -/
def yearTarget (p : String) : JSVal :=
  match jsToNumber p with
  | some q => .num q
  | none => .str p

/-- `isNaN(numericRank) ? rankParam : numericRank` (lines 178-179). -/
def rankTarget (p : String) : JSVal :=
  match jsToNumber p with
  | some q => .num q
  | none => .str p

def yearRoute (db : List Row) (p : String) : RouteResult :=
  let years := distinctYears db
  let idx := jsIndexOf years (yearTarget p)
  if idx = -1 then .notFound ("Error: no data for year " ++ p)
  else
    let rows := recordsForYear db p
    if rows = [] then .notFound ("Error: no data for year " ++ p)
    else
      .ok [("title", some ("Year " ++ p ++ " — Economic Freedom")),
           ("pageTitle", some ("Year " ++ p)),
           ("year", some p),
           ("tableRows", some (String.join (rows.map trYear))),
           ("prevLink", some ("/year/" ++ jsToString (circPrev years idx.toNat))),
           ("nextLink", some ("/year/" ++ jsToString (circNext years idx.toNat))),
           ("chartLabels", some (jsonStrLabelsText (yearChartLabels rows))),
           ("chartData", some (jsonValuesText (yearChartValues rows)))]

def countryRoute (db : List Row) (p : String) : RouteResult :=
  let countries := distinctCountries db
  let idx := jsFindIndex (fun c => jsLower (jsToString c) == jsLower p) countries
  if idx = -1 then .notFound ("Error: no data for country " ++ p)
  else
    match recordsForCountry db p with
    | [] => .notFound ("Error: no data for country " ++ p)
    | r0 :: rest =>
      .ok [("title", some ("Freedom — " ++ jsToString r0.country)),
           ("pageTitle", some ("Freedom Scores: " ++ jsToString r0.country)),
           ("tableRows", some (String.join ((r0 :: rest).map trCountry))),
           ("prevLink", some ("/country/" ++ encodeURIComponent (jsToString (circPrev countries idx.toNat)))),
           ("nextLink", some ("/country/" ++ encodeURIComponent (jsToString (circNext countries idx.toNat)))),
           ("chartLabels", some (jsonLabelsText (rowChartLabels (r0 :: rest)))),
           ("chartData", some (jsonValuesText (rowChartValues (r0 :: rest))))]

def rankRoute (db : List Row) (p : String) : RouteResult :=
  let ranks := distinctRanks db
  let idx := jsIndexOf ranks (rankTarget p)
  if idx = -1 then .notFound ("Error: no data for rank " ++ p)
  else
    let rows := recordsForRank db p
    if rows = [] then .notFound ("Error: no data for rank " ++ p)
    else
      .ok [("title", some ("Rank " ++ p ++ " — Economic Freedom")),
           ("pageTitle", some ("Rank " ++ p ++ " across years")),
           ("tableRows", some (String.join (rows.map trRank))),
           ("prevLink", some ("/rank/" ++ encodeURIComponent (jsToString (circPrev ranks idx.toNat)))),
           ("nextLink", some ("/rank/" ++ encodeURIComponent (jsToString (circNext ranks idx.toNat)))),
           ("chartLabels", some (jsonLabelsText (rowChartLabels rows))),
           ("chartData", some (jsonValuesText (rowChartValues rows)))]

/-- Does `pat` occur as a contiguous block of `s`? -/
def occursIn (pat : List Char) : List Char → Bool
  | [] => pat.isEmpty
  | c :: rest => pat.isPrefixOf (c :: rest) || occursIn pat rest

def strContains (s pat : String) : Bool := occursIn pat.data s.data

/-! ## Concrete seed data used by witnesses and counterexamples -/

/-- The spec's two-row Chile seed data. -/
def chileDb : List Row :=
  [⟨JSVal.str "Chile", JSVal.num 2020, JSVal.num 1, JSVal.num 8.1⟩,
   ⟨JSVal.str "Chile", JSVal.num 2021, JSVal.num 2, JSVal.num 8.3⟩]

/-- Eleven rows for year 2020 with distinct countries and indexes. -/
def elevenYearDb : List Row :=
  [⟨JSVal.str "c0", JSVal.num 2020, JSVal.num 1, JSVal.num 1⟩,
   ⟨JSVal.str "c1", JSVal.num 2020, JSVal.num 2, JSVal.num 2⟩,
   ⟨JSVal.str "c2", JSVal.num 2020, JSVal.num 3, JSVal.num 3⟩,
   ⟨JSVal.str "c3", JSVal.num 2020, JSVal.num 4, JSVal.num 4⟩,
   ⟨JSVal.str "c4", JSVal.num 2020, JSVal.num 5, JSVal.num 5⟩,
   ⟨JSVal.str "c5", JSVal.num 2020, JSVal.num 6, JSVal.num 6⟩,
   ⟨JSVal.str "c6", JSVal.num 2020, JSVal.num 7, JSVal.num 7⟩,
   ⟨JSVal.str "c7", JSVal.num 2020, JSVal.num 8, JSVal.num 8⟩,
   ⟨JSVal.str "c8", JSVal.num 2020, JSVal.num 9, JSVal.num 9⟩,
   ⟨JSVal.str "c9", JSVal.num 2020, JSVal.num 10, JSVal.num 10⟩,
   ⟨JSVal.str "c10", JSVal.num 2020, JSVal.num 11, JSVal.num 11⟩]

/-- One row whose rank is the text 'a b'. -/
def rankSpaceDb : List Row :=
  [⟨JSVal.str "X", JSVal.num 2020, JSVal.str "a b", JSVal.num 5⟩]

/-- One row whose country is the Latin-1 text 'Écosse'. -/
def ecosseDb : List Row :=
  [⟨JSVal.str "Écosse", JSVal.num 2020, JSVal.num 1, JSVal.num 8⟩]

/-! ## Helper lemmas -/

theorem toNat_ofNat_small (n : Nat) (h : n < 55296) : (Char.ofNat n).toNat = n := by
  unfold Char.ofNat
  rw [dif_pos (Or.inl h)]
  rfl

theorem toNat_intMod (m n : Nat) : (((m : Int)) % (n : Int)).toNat = m % n := by
  rw [show ((m : Int)) % (n : Int) = ((m % n : Nat) : Int) from by push_cast; rfl,
    Int.toNat_natCast]

theorem isPrefixOf_self (l : List Char) : l.isPrefixOf l = true :=
  List.isPrefixOf_iff_prefix.mpr (List.prefix_refl l)

theorem occursIn_append (b pat : List Char) : occursIn pat (b ++ pat) = true := by
  induction b with
  | nil =>
      cases pat with
      | nil => rfl
      | cons c t => simp [occursIn, isPrefixOf_self]
  | cons x xs ih => simp [occursIn, ih]

theorem strContains_err (pre mid p : String) (hsplit : pre.data = ("Error: ").data ++ mid.data) :
    strContains (pre ++ p) (mid ++ p) = true := by
  unfold strContains
  rw [String.data_append, String.data_append, hsplit, List.append_assoc]
  exact occursIn_append _ _

theorem jsIndexOfAux_eq_neg1_iff {α : Type} [DecidableEq α] (a : α) (l : List α) :
    ∀ k : Nat, (jsIndexOfAux a l k = -1 ↔ a ∉ l) := by
  induction l with
  | nil => intro k; simp [jsIndexOfAux]
  | cons x xs ih =>
      intro k
      by_cases h : x = a
      · subst h
        rw [show jsIndexOfAux x (x :: xs) k = (k : Int) from by simp [jsIndexOfAux]]
        constructor
        · intro hk; exfalso; omega
        · intro hk; exact absurd (List.mem_cons_self x xs) hk
      · simp only [jsIndexOfAux, if_neg h, ih (k + 1), List.mem_cons]
        constructor
        · intro hk hmem
          rcases hmem with rfl | hmem
          · exact h rfl
          · exact hk hmem
        · intro hk hmem; exact hk (Or.inr hmem)

theorem jsIndexOf_eq_neg1_iff {α : Type} [DecidableEq α] (l : List α) (a : α) :
    jsIndexOf l a = -1 ↔ a ∉ l :=
  jsIndexOfAux_eq_neg1_iff a l 0

theorem jsIndexOf_ne_neg1_iff {α : Type} [DecidableEq α] (l : List α) (a : α) :
    jsIndexOf l a ≠ -1 ↔ a ∈ l := by
  rw [Ne, jsIndexOf_eq_neg1_iff, not_not]

theorem getD_mem {α : Type} (l : List α) (n : Nat) (d : α) (h : n < l.length) :
    l.getD n d ∈ l := by
  rw [List.getD_eq_getElem?_getD, List.getElem?_eq_getElem h]
  exact List.getElem_mem h

theorem circPrev_mem (keys : List JSVal) (i : Nat) (h : keys ≠ []) :
    circPrev keys i ∈ keys := by
  have hn : 0 < keys.length := List.length_pos.mpr h
  apply getD_mem
  have h1 : (0 : Int) ≤ ((i : Int) - 1 + keys.length) % keys.length :=
    Int.emod_nonneg _ (by omega)
  have h2 : ((i : Int) - 1 + keys.length) % keys.length < keys.length :=
    Int.emod_lt_of_pos _ (by omega)
  omega

theorem circNext_mem (keys : List JSVal) (i : Nat) (h : keys ≠ []) :
    circNext keys i ∈ keys := by
  have hn : 0 < keys.length := List.length_pos.mpr h
  apply getD_mem
  have h1 : (0 : Int) ≤ ((i : Int) + 1) % keys.length :=
    Int.emod_nonneg _ (by omega)
  have h2 : ((i : Int) + 1) % keys.length < keys.length :=
    Int.emod_lt_of_pos _ (by omega)
  omega

theorem circPrev_natIdx (keys : List JSVal) (i : Nat) :
    circPrev keys i = keys.getD ((i + keys.length - 1) % keys.length) JSVal.null := by
  unfold circPrev
  have h : (((i : Int) - 1 + keys.length) % keys.length).toNat
      = (i + keys.length - 1) % keys.length := by
    by_cases hn : keys.length = 0
    · simp [hn]
    · rw [show ((i : Int) - 1 + keys.length) = ((i + keys.length - 1 : Nat) : Int) from by
        omega, toNat_intMod]
  rw [h]

theorem circNext_natIdx (keys : List JSVal) (i : Nat) :
    circNext keys i = keys.getD ((i + 1) % keys.length) JSVal.null := rfl

theorem jsFindIndexAux_eq_neg1_iff {α : Type} (p : α → Bool) (l : List α) :
    ∀ k : Nat, (jsFindIndexAux p l k = -1 ↔ ∀ x ∈ l, p x = false) := by
  induction l with
  | nil => intro k; simp [jsFindIndexAux]
  | cons x xs ih =>
      intro k
      by_cases h : p x = true
      · rw [show jsFindIndexAux p (x :: xs) k = (k : Int) from by simp [jsFindIndexAux, h]]
        constructor
        · intro hk; exfalso; omega
        · intro hk
          have := hk x (List.mem_cons_self x xs)
          rw [h] at this
          exact absurd this (by simp)
      · have h' : p x = false := by
          cases hpx : p x
          · rfl
          · exact absurd hpx h
        rw [show jsFindIndexAux p (x :: xs) k = jsFindIndexAux p xs (k + 1) from by
          simp [jsFindIndexAux, h']]
        rw [ih (k + 1)]
        constructor
        · intro hk y hy
          rcases List.mem_cons.mp hy with rfl | hy
          · exact h'
          · exact hk y hy
        · intro hk y hy
          exact hk y (List.mem_cons_of_mem _ hy)

theorem jsFindIndex_eq_neg1_iff {α : Type} (p : α → Bool) (l : List α) :
    jsFindIndex p l = -1 ↔ ∀ x ∈ l, p x = false :=
  jsFindIndexAux_eq_neg1_iff p l 0

/-! ## Insertion-sort lemmas -/

theorem perm_insertLe {α : Type} (le : α → α → Bool) (a : α) (l : List α) :
    (insertLe le a l).Perm (a :: l) := by
  induction l with
  | nil => exact List.Perm.refl _
  | cons b t ih =>
      by_cases h : le a b = true
      · simp [insertLe, h]
      · rw [show insertLe le a (b :: t) = b :: insertLe le a t from by simp [insertLe, h]]
        exact (ih.cons b).trans (List.Perm.swap a b t)

theorem perm_sortLe {α : Type} (le : α → α → Bool) (l : List α) :
    (sortLe le l).Perm l := by
  induction l with
  | nil => exact List.Perm.refl _
  | cons a t ih => exact (perm_insertLe le a (sortLe le t)).trans (ih.cons a)

theorem pairwise_insertLe {α : Type} (le : α → α → Bool)
    (htot : ∀ a b, le a b = true ∨ le b a = true)
    (htrans : ∀ a b c, le a b = true → le b c = true → le a c = true)
    (a : α) (l : List α) (hl : l.Pairwise (fun x y => le x y = true)) :
    (insertLe le a l).Pairwise (fun x y => le x y = true) := by
  induction l with
  | nil => simp [insertLe]
  | cons b t ih =>
      rcases List.pairwise_cons.mp hl with ⟨hb, ht⟩
      by_cases h : le a b = true
      · rw [show insertLe le a (b :: t) = a :: b :: t from by simp [insertLe, h]]
        refine List.pairwise_cons.mpr ⟨?_, hl⟩
        intro x hx
        rcases List.mem_cons.mp hx with rfl | hx
        · exact h
        · exact htrans a b x h (hb x hx)
      · rw [show insertLe le a (b :: t) = b :: insertLe le a t from by simp [insertLe, h]]
        refine List.pairwise_cons.mpr ⟨?_, ih ht⟩
        intro x hx
        rcases List.mem_cons.mp ((perm_insertLe le a t).mem_iff.mp hx) with rfl | hx
        · rcases htot x b with hxb | hbx
          · exact absurd hxb h
          · exact hbx
        · exact hb x hx

theorem pairwise_sortLe {α : Type} (le : α → α → Bool)
    (htot : ∀ a b, le a b = true ∨ le b a = true)
    (htrans : ∀ a b c, le a b = true → le b c = true → le a c = true)
    (l : List α) : (sortLe le l).Pairwise (fun x y => le x y = true) := by
  induction l with
  | nil => simp [sortLe]
  | cons a t ih => exact pairwise_insertLe le htot htrans a (sortLe le t) ih

/-! ## Properties of the decimal order -/

theorem Dec.le_total (a b : Dec) : Dec.le a b = true ∨ Dec.le b a = true := by
  unfold Dec.le
  rcases Int.le_total (a.num * 10 ^ b.exp) (b.num * 10 ^ a.exp) with h | h
  · exact Or.inl (decide_eq_true h)
  · exact Or.inr (decide_eq_true h)

theorem Dec.le_trans (a b c : Dec) (h1 : Dec.le a b = true) (h2 : Dec.le b c = true) :
    Dec.le a c = true := by
  unfold Dec.le at h1 h2 ⊢
  rw [decide_eq_true_eq] at h1 h2 ⊢
  have hb : (0 : Int) < 10 ^ b.exp := pow_pos (by norm_num) _
  have h1' := mul_le_mul_of_nonneg_right h1 (pow_nonneg (by norm_num : (0:Int) ≤ 10) c.exp)
  have h2' := mul_le_mul_of_nonneg_right h2 (pow_nonneg (by norm_num : (0:Int) ≤ 10) a.exp)
  have key : (a.num * 10 ^ c.exp) * 10 ^ b.exp ≤ (c.num * 10 ^ a.exp) * 10 ^ b.exp := by
    calc (a.num * 10 ^ c.exp) * 10 ^ b.exp
        = (a.num * 10 ^ b.exp) * 10 ^ c.exp := by ring
      _ ≤ (b.num * 10 ^ a.exp) * 10 ^ c.exp := h1'
      _ = (b.num * 10 ^ c.exp) * 10 ^ a.exp := by ring
      _ ≤ (c.num * 10 ^ b.exp) * 10 ^ a.exp := h2'
      _ = (c.num * 10 ^ a.exp) * 10 ^ b.exp := by ring
  exact le_of_mul_le_mul_right key hb

theorem Dec.cross_eq_ext_le (a b : Dec) (hle : a.exp ≤ b.exp)
    (h : a.num * 10 ^ b.exp = b.num * 10 ^ a.exp) : a = b := by
  have hsplit : (10 : Int) ^ b.exp = 10 ^ a.exp * 10 ^ (b.exp - a.exp) := by
    rw [← pow_add]
    congr 1
    omega
  rw [hsplit] at h
  have h10 : (10 : Int) ^ a.exp ≠ 0 := by positivity
  have hcan : a.num * 10 ^ (b.exp - a.exp) = b.num := by
    apply mul_right_cancel₀ h10
    calc (a.num * 10 ^ (b.exp - a.exp)) * 10 ^ a.exp
        = a.num * (10 ^ a.exp * 10 ^ (b.exp - a.exp)) := by ring
      _ = b.num * 10 ^ a.exp := h
  cases hd : b.exp - a.exp with
  | zero =>
      have hexp : a.exp = b.exp := by omega
      have hnum : a.num = b.num := by
        rw [hd] at hcan
        simpa using hcan
      exact Subtype.ext (Prod.ext hnum hexp)
  | succ d =>
      exfalso
      rw [hd] at hcan
      have hdvd : (10 : Int) ∣ b.num := ⟨a.num * 10 ^ d, by rw [← hcan]; ring⟩
      have hmod : b.num % 10 = 0 := Int.emod_eq_zero_of_dvd hdvd
      rcases b.property with hb0 | hb10
      · have : b.exp = 0 := hb0
        omega
      · exact hb10 hmod

theorem Dec.cross_eq_ext (a b : Dec) (h : a.num * 10 ^ b.exp = b.num * 10 ^ a.exp) : a = b := by
  rcases Nat.le_total a.exp b.exp with hle | hle
  · exact Dec.cross_eq_ext_le a b hle h
  · exact (Dec.cross_eq_ext_le b a hle h.symm).symm

theorem Dec.le_antisymm (a b : Dec) (h1 : Dec.le a b = true) (h2 : Dec.le b a = true) : a = b := by
  unfold Dec.le at h1 h2
  rw [decide_eq_true_eq] at h1 h2
  exact Dec.cross_eq_ext a b (Int.le_antisymm h1 h2)

/-! ## Properties of the SQLite value order -/

theorem sqlValLe_total (a b : JSVal) : sqlValLe a b = true ∨ sqlValLe b a = true := by
  cases a <;> cases b <;> simp [sqlValLe]
  · exact Dec.le_total _ _
  · exact le_total _ _

theorem sqlValLe_trans (a b c : JSVal) (h1 : sqlValLe a b = true) (h2 : sqlValLe b c = true) :
    sqlValLe a c = true := by
  cases a <;> cases b <;> cases c <;> simp [sqlValLe] at h1 h2 ⊢
  · exact Dec.le_trans _ _ _ h1 h2
  · exact le_trans h1 h2

theorem sqlValLe_antisymm (a b : JSVal) (h1 : sqlValLe a b = true) (h2 : sqlValLe b a = true) :
    a = b := by
  cases a <;> cases b <;> simp [sqlValLe] at h1 h2 ⊢
  · exact Dec.le_antisymm _ _ h1 h2
  · exact String.ext (le_antisymm h1 h2)

theorem lexDesc_total {α : Type} (f : α → JSVal) (le2 : α → α → Bool)
    (h2 : ∀ a b, le2 a b = true ∨ le2 b a = true) (r1 r2 : α) :
    (if f r1 = f r2 then le2 r1 r2 else sqlValLe (f r2) (f r1)) = true
      ∨ (if f r2 = f r1 then le2 r2 r1 else sqlValLe (f r1) (f r2)) = true := by
  by_cases hf : f r1 = f r2
  · rw [if_pos hf, if_pos hf.symm]
    exact h2 r1 r2
  · rw [if_neg hf, if_neg (Ne.symm hf)]
    exact sqlValLe_total (f r2) (f r1)

theorem lexDesc_trans {α : Type} (f : α → JSVal) (le2 : α → α → Bool)
    (h2t : ∀ a b c, le2 a b = true → le2 b c = true → le2 a c = true) (r1 r2 r3 : α)
    (h1 : (if f r1 = f r2 then le2 r1 r2 else sqlValLe (f r2) (f r1)) = true)
    (h2 : (if f r2 = f r3 then le2 r2 r3 else sqlValLe (f r3) (f r2)) = true) :
    (if f r1 = f r3 then le2 r1 r3 else sqlValLe (f r3) (f r1)) = true := by
  by_cases h12 : f r1 = f r2 <;> by_cases h23 : f r2 = f r3
  · rw [if_pos h12] at h1
    rw [if_pos h23] at h2
    rw [if_pos (h12.trans h23)]
    exact h2t r1 r2 r3 h1 h2
  · rw [if_neg h23] at h2
    have h13 : f r1 ≠ f r3 := by rw [h12]; exact h23
    rw [if_neg h13, h12]
    exact h2
  · rw [if_neg h12] at h1
    have h13 : f r1 ≠ f r3 := fun hx => h12 (hx.trans h23.symm)
    rw [if_neg h13, ← h23]
    exact h1
  · rw [if_neg h12] at h1
    rw [if_neg h23] at h2
    by_cases h13 : f r1 = f r3
    · exfalso
      rw [← h13] at h2
      exact h12 (sqlValLe_antisymm (f r1) (f r2) h2 h1)
    · rw [if_neg h13]
      exact sqlValLe_trans (f r3) (f r2) (f r1) h2 h1

theorem rowLeCountry_total (r1 r2 : Row) :
    rowLeCountry r1 r2 = true ∨ rowLeCountry r2 r1 = true := by
  unfold rowLeCountry
  exact lexDesc_total (fun r => r.freedomIndex) (fun a b => sqlValLe b.year a.year)
    (fun a b => sqlValLe_total b.year a.year) r1 r2

theorem rowLeCountry_trans (r1 r2 r3 : Row) (h1 : rowLeCountry r1 r2 = true)
    (h2 : rowLeCountry r2 r3 = true) : rowLeCountry r1 r3 = true := by
  unfold rowLeCountry at h1 h2 ⊢
  exact lexDesc_trans (fun r => r.freedomIndex) (fun a b => sqlValLe b.year a.year)
    (fun a b c hab hbc => sqlValLe_trans c.year b.year a.year hbc hab) r1 r2 r3 h1 h2

/-! ## Renderer lemmas -/

theorem expandRepl_noDollar (m b a v : List Char) (h : v.all (fun c => c ≠ '$') = true) :
    expandRepl m b a v = v := by
  induction v with
  | nil => rfl
  | cons c rest ih =>
      rw [List.all_cons, Bool.and_eq_true] at h
      have hc : ¬ c = '$' := by simpa using h.1
      rw [show expandRepl m b a (c :: rest) = c :: expandRepl m b a rest from by
        rw [expandRepl.eq_def]; simp [hc]]
      rw [ih h.2]

theorem valOrEmpty_noDollar (v : Option String) (h : noDollar v = true) :
    (valOrEmpty v).all (fun c => c ≠ '$') = true := by
  cases v
  · rfl
  · simpa [noDollar, valOrEmpty] using h

theorem gsubAux_eq_litAux (pat repl : List Char) (h : repl.all (fun c => c ≠ '$') = true) :
    ∀ (fuel : Nat) (done s : List Char), gsubAux pat repl fuel done s = litAux pat repl fuel s := by
  intro fuel
  induction fuel with
  | zero => intro done s; rfl
  | succ f ih =>
      intro done s
      cases hsp : splitFirst pat s with
      | none => simp [gsubAux, litAux, hsp]
      | some ba =>
          obtain ⟨b, a⟩ := ba
          have he : expandRepl pat (done ++ b) a repl = repl := expandRepl_noDollar _ _ _ _ h
          simp [gsubAux, litAux, hsp, he, ih]

theorem jsReplaceAll_eq_verbatim (pat repl s : List Char) (h : repl.all (fun c => c ≠ '$') = true) :
    jsReplaceAll pat repl s = replaceAllVerbatim pat repl s :=
  gsubAux_eq_litAux pat repl h _ _ s

theorem jsReplaceAll_self (pat v : List Char) (hne : pat ≠ [])
    (hv : v.all (fun c => c ≠ '$') = true) : jsReplaceAll pat v pat = v := by
  obtain ⟨c, t, rfl⟩ := List.exists_cons_of_ne_nil hne
  have h1 : splitFirst (c :: t) (c :: t) = some ([], []) := by
    simp [splitFirst, isPrefixOf_self]
  have h2 : splitFirst (c :: t) ([] : List Char) = none := by simp [splitFirst]
  have he : expandRepl (c :: t) [] [] v = v := expandRepl_noDollar _ _ _ _ hv
  unfold jsReplaceAll
  simp [gsubAux, h1, h2, he]

/-! ## Case-folding congruences -/

theorem jsLowerChar_congr (a b : Char) (h : asciiLowerChar a = asciiLowerChar b) :
    jsLowerChar a = jsLowerChar b := by
  unfold asciiLowerChar at h
  unfold jsLowerChar
  by_cases ha : 65 ≤ a.toNat ∧ a.toNat ≤ 90
  · by_cases hb : 65 ≤ b.toNat ∧ b.toNat ≤ 90
    · rw [if_pos ha, if_pos hb]
      rw [if_pos ha, if_pos hb] at h
      exact h
    · rw [if_pos ha, if_neg hb] at h
      have hbt : b.toNat = a.toNat + 32 := by
        rw [← h]; exact toNat_ofNat_small _ (by omega)
      rw [if_pos ha, if_neg hb,
        if_neg (by omega : ¬(192 ≤ b.toNat ∧ b.toNat ≤ 222 ∧ b.toNat ≠ 215))]
      exact h
  · by_cases hb : 65 ≤ b.toNat ∧ b.toNat ≤ 90
    · rw [if_neg ha, if_pos hb] at h
      have hat : a.toNat = b.toNat + 32 := by
        rw [h]; exact toNat_ofNat_small _ (by omega)
      rw [if_neg ha,
        if_neg (by omega : ¬(192 ≤ a.toNat ∧ a.toNat ≤ 222 ∧ a.toNat ≠ 215)), if_pos hb]
      exact h
    · rw [if_neg ha, if_neg hb] at h
      rw [h]

theorem map_jsLower_congr : ∀ (l1 l2 : List Char),
    l1.map asciiLowerChar = l2.map asciiLowerChar → l1.map jsLowerChar = l2.map jsLowerChar := by
  intro l1
  induction l1 with
  | nil =>
      intro l2 h
      cases l2 with
      | nil => rfl
      | cons b u => simp at h
  | cons a t ih =>
      intro l2 h
      cases l2 with
      | nil => simp at h
      | cons b u =>
          simp only [List.map_cons, List.cons.injEq] at h ⊢
          exact ⟨jsLowerChar_congr a b h.1, ih u h.2⟩

theorem jsLower_congr (p1 p2 : String) (h : asciiLower p1 = asciiLower p2) :
    jsLower p1 = jsLower p2 := by
  have hd : p1.data.map asciiLowerChar = p2.data.map asciiLowerChar := congrArg String.data h
  exact congrArg String.mk (map_jsLower_congr _ _ hd)

/-! ## Claim theorems -/

/-- Claim C1: for each parametric route (year, country, rank), given the
ascending distinct key sequence of length n with the requested key found at
index i, the previous key is the element at index (i-1+n) mod n and the
next key is the element at index (i+1) mod n; in particular, the previous
of the first key is the last key and the next of the last key is the first
key.  (`circPrev`/`circNext` are the navigation computations shared by all
three route handlers.) -/
theorem claim_C1 (keys : List JSVal) (i : Nat) (h : i < keys.length) :
    circPrev keys i = keys.getD ((i + keys.length - 1) % keys.length) JSVal.null
    ∧ circNext keys i = keys.getD ((i + 1) % keys.length) JSVal.null
    ∧ (i = 0 → keys.getLast? = some (circPrev keys i))
    ∧ (i + 1 = keys.length → keys.head? = some (circNext keys i)) := by
  have hn : 0 < keys.length := by omega
  refine ⟨circPrev_natIdx keys i, circNext_natIdx keys i, ?_, ?_⟩
  · intro hi
    subst hi
    rw [circPrev_natIdx]
    have hlt : keys.length - 1 < keys.length := by omega
    rw [show (0 + keys.length - 1) % keys.length = keys.length - 1 from by
      rw [Nat.zero_add]; exact Nat.mod_eq_of_lt hlt]
    rw [List.getLast?_eq_getElem?, List.getD_eq_getElem?_getD, List.getElem?_eq_getElem hlt]
    rfl
  · intro hi
    rw [circNext_natIdx, hi, Nat.mod_self]
    rw [List.head?_eq_getElem?, List.getD_eq_getElem?_getD, List.getElem?_eq_getElem hn]
    rfl

/-- Witness for C1 at a concrete three-year key list: the previous key of
the first year is the last year. -/
theorem claim_C1_witness :
    ([JSVal.num 2019, JSVal.num 2020, JSVal.num 2021] : List JSVal).getLast?
      = some (circPrev [JSVal.num 2019, JSVal.num 2020, JSVal.num 2021] 0) :=
  (claim_C1 [JSVal.num 2019, JSVal.num 2020, JSVal.num 2021] 0 (by decide)).2.2.1 rfl

/-- Claim C10: in a singleton distinct-key sequence, the computed previous
and next keys both equal the requested key itself, and on a one-year
database the year route's generated previous and next links coincide,
pointing back to the same page. -/
theorem claim_C10 :
    (∀ k : JSVal, circPrev [k] 0 = k ∧ circNext [k] 0 = k)
    ∧ ((resultData (yearRoute [⟨JSVal.str "Chile", JSVal.num 2020, JSVal.num 1, JSVal.num 8⟩]
          "2020")).bind (fun d => lookupField d "prevLink")
        = (resultData (yearRoute [⟨JSVal.str "Chile", JSVal.num 2020, JSVal.num 1, JSVal.num 8⟩]
          "2020")).bind (fun d => lookupField d "nextLink")
      ∧ (resultData (yearRoute [⟨JSVal.str "Chile", JSVal.num 2020, JSVal.num 1, JSVal.num 8⟩]
          "2020")).bind (fun d => lookupField d "prevLink") = some (some "/year/2020")) := by
  refine ⟨fun k => ⟨?_, ?_⟩, by decide, by decide⟩
  · rw [circPrev_natIdx]
    simp
  · rw [circNext_natIdx]
    simp

/-- Claim C5: for the year and rank routes, a numeric-looking path segment
is coerced to a number before the equality comparison against the distinct
key sequence, and a non-numeric segment is compared as the literal string;
in particular /year/2020 matches a stored integer year 2020. -/
theorem claim_C5 (keys : List JSVal) (p : String) :
    ((jsIndexOf keys (yearTarget p) ≠ -1) ↔
      (match jsToNumber p with
       | some q => JSVal.num q ∈ keys
       | none => JSVal.str p ∈ keys))
    ∧ ((jsIndexOf keys (rankTarget p) ≠ -1) ↔
      (match jsToNumber p with
       | some q => JSVal.num q ∈ keys
       | none => JSVal.str p ∈ keys))
    ∧ jsIndexOf [JSVal.num 2020] (yearTarget "2020") = 0 := by
  refine ⟨?_, ?_, by decide⟩
  · unfold yearTarget
    cases h : jsToNumber p
    · simpa using jsIndexOf_ne_neg1_iff keys (JSVal.str p)
    · simpa using jsIndexOf_ne_neg1_iff keys (JSVal.num _)
  · unfold rankTarget
    cases h : jsToNumber p
    · simpa using jsIndexOf_ne_neg1_iff keys (JSVal.str p)
    · simpa using jsIndexOf_ne_neg1_iff keys (JSVal.num _)

/-- Claim C3: with no storage error, the year route responds 404 with a
body containing "no data for year p" exactly when the coerced year is
absent from the distinct year sequence or the detail query is empty, and
responds 200 (rendered page data) exactly otherwise. -/
theorem claim_C3 (db : List Row) (p : String) :
    ((∃ msg, yearRoute db p = RouteResult.notFound msg
        ∧ strContains msg ("no data for year " ++ p) = true)
      ↔ (jsIndexOf (distinctYears db) (yearTarget p) = -1 ∨ recordsForYear db p = []))
    ∧ ((∃ d, yearRoute db p = RouteResult.ok d)
      ↔ (jsIndexOf (distinctYears db) (yearTarget p) ≠ -1 ∧ recordsForYear db p ≠ [])) := by
  have hmsg : strContains ("Error: no data for year " ++ p) ("no data for year " ++ p) = true :=
    strContains_err _ _ p rfl
  simp only [yearRoute]
  by_cases h1 : jsIndexOf (distinctYears db) (yearTarget p) = -1
  · rw [if_pos h1]
    constructor
    · exact ⟨fun _ => Or.inl h1, fun _ => ⟨_, rfl, hmsg⟩⟩
    · constructor
      · rintro ⟨d, hd⟩
        exact RouteResult.noConfusion hd
      · rintro ⟨hne, _⟩
        exact absurd h1 hne
  · rw [if_neg h1]
    by_cases h2 : recordsForYear db p = []
    · rw [if_pos h2]
      constructor
      · exact ⟨fun _ => Or.inr h2, fun _ => ⟨_, rfl, hmsg⟩⟩
      · constructor
        · rintro ⟨d, hd⟩
          exact RouteResult.noConfusion hd
        · rintro ⟨_, hne2⟩
          exact absurd h2 hne2
    · rw [if_neg h2]
      constructor
      · constructor
        · rintro ⟨msg, hmsg2, _⟩
          exact RouteResult.noConfusion hmsg2
        · rintro (hc | hc)
          · exact absurd hc h1
          · exact absurd hc h2
      · exact ⟨fun _ => ⟨h1, h2⟩, fun _ => ⟨_, rfl⟩⟩

/-- Claim C8: recordsForCountry returns exactly the rows whose country
matches the parameter case-insensitively (SQLite `lower`), ordered by
freedom index descending then year descending, and on the two-row Chile
seed data returns the 2021/8.3 row before the 2020/8.1 row. -/
theorem claim_C8 (db : List Row) (p : String) :
    (∀ r ∈ recordsForCountry db p, countryMatches r p = true)
    ∧ (recordsForCountry db p).Pairwise (fun r1 r2 => rowLeCountry r1 r2 = true)
    ∧ (recordsForCountry db p).Perm (db.filter (fun r => countryMatches r p))
    ∧ recordsForCountry
        [⟨JSVal.str "Chile", JSVal.num 2020, JSVal.num 1, JSVal.num 8.1⟩,
         ⟨JSVal.str "Chile", JSVal.num 2021, JSVal.num 2, JSVal.num 8.3⟩] "chile"
      = [⟨JSVal.str "Chile", JSVal.num 2021, JSVal.num 2, JSVal.num 8.3⟩,
         ⟨JSVal.str "Chile", JSVal.num 2020, JSVal.num 1, JSVal.num 8.1⟩] := by
  refine ⟨?_, ?_, perm_sortLe _ _, by decide⟩
  · intro r hr
    have hmem : r ∈ db.filter (fun r => countryMatches r p) :=
      (perm_sortLe rowLeCountry _).mem_iff.mp hr
    exact (List.mem_filter.mp hmem).2
  · exact pairwise_sortLe rowLeCountry rowLeCountry_total rowLeCountry_trans _

/-- Counterexample to C2 as stated: with the value `$&` for key `a`, the
renderer re-inserts the matched token instead of substituting the value
verbatim (JavaScript replacement-pattern expansion). -/
theorem claim_C2_counterexample :
    renderTemplate ("\x7b\x7ba\x7d\x7d").data [("a", some "$&")] = ("\x7b\x7ba\x7d\x7d").data
    ∧ ¬ renderTemplate ("\x7b\x7ba\x7d\x7d").data [("a", some "$&")] = ("$&").data :=
  ⟨by decide, by decide⟩

/-- Claim C2 (amended): for every template and every field mapping whose
values contain no dollar character, the renderer replaces every occurrence
of each known token with the key's value verbatim (empty when the value is
null) and leaves unknown tokens untouched — it coincides with the
verbatim-substitution renderer `renderVerbatimSpec`. -/
theorem claim_C2 (t : List Char) (data : List (String × Option String))
    (h : ∀ kv ∈ data, noDollar kv.2 = true) :
    renderTemplate t data = renderVerbatimSpec t data := by
  induction data generalizing t with
  | nil => rfl
  | cons kv rest ih =>
      have h1 : noDollar kv.2 = true := h kv (List.mem_cons_self _ _)
      have h2 : ∀ x ∈ rest, noDollar x.2 = true := fun x hx => h x (List.mem_cons_of_mem _ hx)
      show renderTemplate (jsReplaceAll (tokenOf kv.1) (valOrEmpty kv.2) t) rest
          = renderVerbatimSpec (replaceAllVerbatim (tokenOf kv.1) (valOrEmpty kv.2) t) rest
      rw [jsReplaceAll_eq_verbatim _ _ _ (valOrEmpty_noDollar _ h1)]
      exact ih _ h2

/-- Witness for the amended C2 on a dollar-free mapping with a known key, a
null value and an unknown token. -/
theorem claim_C2_witness :
    (∀ kv ∈ ([("a", some "x"), ("b", none)] : List (String × Option String)),
      noDollar kv.2 = true)
    ∧ renderTemplate ("\x7b\x7ba\x7d\x7d and \x7b\x7bb\x7d\x7d and \x7b\x7bc\x7d\x7d").data
        [("a", some "x"), ("b", none)]
      = renderVerbatimSpec ("\x7b\x7ba\x7d\x7d and \x7b\x7bb\x7d\x7d and \x7b\x7bc\x7d\x7d").data
        [("a", some "x"), ("b", none)] :=
  ⟨by decide, claim_C2 _ _ (by decide)⟩

/-- Claim C9: the renderer applies the field substitutions sequentially in
entry order, each pass operating on the previous pass's output, so a value
substituted for an earlier key can inject a token of a later key, which the
later pass then replaces. -/
theorem claim_C9 :
    (∀ (t : List Char) (e : String × Option String) (rest : List (String × Option String)),
       renderTemplate t (e :: rest)
         = renderTemplate (jsReplaceAll (tokenOf e.1) (valOrEmpty e.2) t) rest)
    ∧ (∀ v2 : List Char, v2.all (fun c => c ≠ '$') = true →
       renderTemplate ("\x7b\x7ba\x7d\x7d").data
           [("a", some "\x7b\x7bb\x7d\x7d"), ("b", some (String.mk v2))] = v2) := by
  constructor
  · intro t e rest
    rfl
  · intro v2 hv2
    show jsReplaceAll (tokenOf "b") (valOrEmpty (some (String.mk v2)))
        (jsReplaceAll (tokenOf "a") (valOrEmpty (some "\x7b\x7bb\x7d\x7d"))
          (("\x7b\x7ba\x7d\x7d").data)) = v2
    rw [show jsReplaceAll (tokenOf "a") (valOrEmpty (some "\x7b\x7bb\x7d\x7d"))
        (("\x7b\x7ba\x7d\x7d").data) = tokenOf "b" from by decide]
    exact jsReplaceAll_self _ _ (by decide) hv2

/-- Witness for C9: the injected later-key token is replaced by the later
field's value. -/
theorem claim_C9_witness :
    renderTemplate ("\x7b\x7ba\x7d\x7d").data
        [("a", some "\x7b\x7bb\x7d\x7d"), ("b", some (String.mk ("xy").data))] = ("xy").data :=
  claim_C9.2 ("xy").data (by decide)

/-- Counterexample to C4 as stated: the parameters 'Écosse' and 'écosse'
differ only in letter case, yet the route returns a rendered table for the
first and a 404 for the second — the route's findIndex match uses the
Unicode JavaScript toLowerCase while the detail query's SQLite lower()
folds only ASCII. -/
theorem claim_C4_counterexample :
    jsLower "Écosse" = jsLower "écosse"
    ∧ resultData (countryRoute ecosseDb "Écosse") ≠ none
    ∧ resultData (countryRoute ecosseDb "écosse") = none :=
  ⟨by decide, by decide, by decide⟩

/-- Claim C4 (amended): for every pair of country path parameters that
differ only in ASCII letter case, the country route produces identical
page data, and in particular identical table rows in the same order. -/
theorem claim_C4 (db : List Row) (p1 p2 : String) (h : asciiLower p1 = asciiLower p2) :
    resultData (countryRoute db p1) = resultData (countryRoute db p2) := by
  have hjs : jsLower p1 = jsLower p2 := jsLower_congr p1 p2 h
  have hpred : (fun c => jsLower (jsToString c) == jsLower p1)
      = (fun c => jsLower (jsToString c) == jsLower p2) := by
    funext c
    rw [hjs]
  have hrec : recordsForCountry db p1 = recordsForCountry db p2 := by
    unfold recordsForCountry
    congr 1
    apply List.filter_congr
    intro r _
    unfold countryMatches
    rw [h]
  simp only [countryRoute]
  rw [hpred, hrec]
  by_cases hc : jsFindIndex (fun c => jsLower (jsToString c) == jsLower p2)
      (distinctCountries db) = -1
  · rw [if_pos hc, if_pos hc]
    rfl
  · rw [if_neg hc, if_neg hc]
    cases recordsForCountry db p2 with
    | nil => rfl
    | cons r0 rest => rfl

/-- Witness for the amended C4 at the Chile seed data. -/
theorem claim_C4_witness :
    asciiLower "Chile" = asciiLower "chile"
    ∧ resultData (countryRoute chileDb "Chile") = resultData (countryRoute chileDb "chile") :=
  ⟨by decide, claim_C4 chileDb "Chile" "chile" (by decide)⟩

/-- Counterexample to C6 as stated: the rank route URL-encodes its
previous/next values (source lines 215-216); with the text rank 'a b' the
generated link is '/rank/a%20b', not the raw '/rank/a b'. -/
theorem claim_C6_counterexample :
    (resultData (rankRoute rankSpaceDb "a b")).bind (fun d => lookupField d "prevLink")
      = some (some "/rank/a%20b")
    ∧ ("/rank/a%20b" : String) ≠ "/rank/a b" :=
  ⟨by decide, by decide⟩

/-- Claim C6 (amended): the country and rank routes URL-encode the
previous/next key values in their generated links, while the year route
places the stringified values into its links without URL-encoding. -/
theorem claim_C6 :
    (∀ (db : List Row) (p : String) (d : List (String × Option String)),
       yearRoute db p = RouteResult.ok d →
       ∃ pv ∈ distinctYears db, ∃ nv ∈ distinctYears db,
         lookupField d "prevLink" = some (some ("/year/" ++ jsToString pv))
         ∧ lookupField d "nextLink" = some (some ("/year/" ++ jsToString nv)))
    ∧ (∀ (db : List Row) (p : String) (d : List (String × Option String)),
       countryRoute db p = RouteResult.ok d →
       ∃ pv ∈ distinctCountries db, ∃ nv ∈ distinctCountries db,
         lookupField d "prevLink" = some (some ("/country/" ++ encodeURIComponent (jsToString pv)))
         ∧ lookupField d "nextLink" = some (some ("/country/" ++ encodeURIComponent (jsToString nv))))
    ∧ (∀ (db : List Row) (p : String) (d : List (String × Option String)),
       rankRoute db p = RouteResult.ok d →
       ∃ pv ∈ distinctRanks db, ∃ nv ∈ distinctRanks db,
         lookupField d "prevLink" = some (some ("/rank/" ++ encodeURIComponent (jsToString pv)))
         ∧ lookupField d "nextLink" = some (some ("/rank/" ++ encodeURIComponent (jsToString nv)))) := by
  refine ⟨?_, ?_, ?_⟩
  · intro db p d hok
    simp only [yearRoute] at hok
    by_cases h1 : jsIndexOf (distinctYears db) (yearTarget p) = -1
    · rw [if_pos h1] at hok
      exact RouteResult.noConfusion hok
    · rw [if_neg h1] at hok
      by_cases h2 : recordsForYear db p = []
      · rw [if_pos h2] at hok
        exact RouteResult.noConfusion hok
      · rw [if_neg h2] at hok
        have hne : distinctYears db ≠ [] := by
          intro h0
          apply h1
          rw [h0]
          rfl
        injection hok with hd
        subst hd
        exact ⟨_, circPrev_mem _ _ hne, _, circNext_mem _ _ hne, rfl, rfl⟩
  · intro db p d hok
    simp only [countryRoute] at hok
    by_cases h1 : jsFindIndex (fun c => jsLower (jsToString c) == jsLower p)
        (distinctCountries db) = -1
    · rw [if_pos h1] at hok
      exact RouteResult.noConfusion hok
    · rw [if_neg h1] at hok
      have hne : distinctCountries db ≠ [] := by
        intro h0
        apply h1
        rw [h0]
        rfl
      cases hrec : recordsForCountry db p with
      | nil =>
          rw [hrec] at hok
          exact RouteResult.noConfusion hok
      | cons r0 rest =>
          rw [hrec] at hok
          injection hok with hd
          subst hd
          exact ⟨_, circPrev_mem _ _ hne, _, circNext_mem _ _ hne, rfl, rfl⟩
  · intro db p d hok
    simp only [rankRoute] at hok
    by_cases h1 : jsIndexOf (distinctRanks db) (rankTarget p) = -1
    · rw [if_pos h1] at hok
      exact RouteResult.noConfusion hok
    · rw [if_neg h1] at hok
      by_cases h2 : recordsForRank db p = []
      · rw [if_pos h2] at hok
        exact RouteResult.noConfusion hok
      · rw [if_neg h2] at hok
        have hne : distinctRanks db ≠ [] := by
          intro h0
          apply h1
          rw [h0]
          rfl
        injection hok with hd
        subst hd
        exact ⟨_, circPrev_mem _ _ hne, _, circNext_mem _ _ hne, rfl, rfl⟩

/-- Witness for the amended C6: on the one-row text-rank database the rank
route's links carry the URL-encoded rank. -/
theorem claim_C6_witness :
    ∃ d, rankRoute rankSpaceDb "a b" = RouteResult.ok d
      ∧ (∃ pv ∈ distinctRanks rankSpaceDb, ∃ nv ∈ distinctRanks rankSpaceDb,
          lookupField d "prevLink" = some (some ("/rank/" ++ encodeURIComponent (jsToString pv)))
          ∧ lookupField d "nextLink"
            = some (some ("/rank/" ++ encodeURIComponent (jsToString nv)))) :=
  ⟨_, rfl, claim_C6.2.2 rankSpaceDb "a b" _ rfl⟩

/-- Counterexample to C7 as stated: on an eleven-row year, the year
route's chart arrays have ten entries, not one per detail row — the
source slices the top 10 rows by freedom index (lines 92-95). -/
theorem claim_C7_counterexample :
    (recordsForYear elevenYearDb "2020").length = 11
    ∧ (yearChartValues (recordsForYear elevenYearDb "2020")).length = 10
    ∧ (yearChartLabels (recordsForYear elevenYearDb "2020")).length = 10 :=
  ⟨by decide, by decide, by decide⟩

/-- Claim C7 (amended): the country and rank routes chart one label
(`year`) and one value (freedom index, null defaulting to 0) per detail
row; the year route charts only the top ten rows by descending freedom
index (all rows when at most ten), each drawn from a detail row; the
arrays are serialized as literal array text in the page data. -/
theorem claim_C7 :
    (∀ rows : List Row,
       (rowChartLabels rows).length = rows.length
       ∧ (rowChartValues rows).length = rows.length
       ∧ (∀ i : Nat, (rowChartValues rows)[i]? = (rows[i]?).map (fun r => toNum0 r.freedomIndex))
       ∧ (∀ i : Nat, (rowChartLabels rows)[i]? = (rows[i]?).map (fun r => r.year)))
    ∧ (∀ rows : List Row,
       (yearChartLabels rows).length = min 10 rows.length
       ∧ (yearChartValues rows).length = min 10 rows.length
       ∧ (∀ v ∈ yearChartValues rows, ∃ r ∈ rows, v = toNum0 r.freedomIndex))
    ∧ (∀ (db : List Row) (p : String) (d : List (String × Option String)),
       countryRoute db p = RouteResult.ok d →
       lookupField d "chartLabels"
         = some (some (jsonLabelsText (rowChartLabels (recordsForCountry db p))))
       ∧ lookupField d "chartData"
         = some (some (jsonValuesText (rowChartValues (recordsForCountry db p)))))
    ∧ (∀ (db : List Row) (p : String) (d : List (String × Option String)),
       rankRoute db p = RouteResult.ok d →
       lookupField d "chartData"
         = some (some (jsonValuesText (rowChartValues (recordsForRank db p)))))
    ∧ (∀ (db : List Row) (p : String) (d : List (String × Option String)),
       yearRoute db p = RouteResult.ok d →
       lookupField d "chartData"
         = some (some (jsonValuesText (yearChartValues (recordsForYear db p))))) := by
  refine ⟨?_, ?_, ?_, ?_, ?_⟩
  · intro rows
    refine ⟨by simp [rowChartLabels], by simp [rowChartValues], ?_, ?_⟩
    · intro i
      simp [rowChartValues]
    · intro i
      simp [rowChartLabels]
  · intro rows
    have hlen : (sortLe jsNumDescLe rows).length = rows.length :=
      (perm_sortLe jsNumDescLe rows).length_eq
    refine ⟨?_, ?_, ?_⟩
    · simp [yearChartLabels, yearTop, hlen]
    · simp [yearChartValues, yearTop, hlen]
    · intro v hv
      rcases List.mem_map.mp hv with ⟨r, hr, rfl⟩
      refine ⟨r, ?_, rfl⟩
      exact (perm_sortLe jsNumDescLe rows).mem_iff.mp (List.mem_of_mem_take hr)
  · intro db p d hok
    simp only [countryRoute] at hok
    by_cases h1 : jsFindIndex (fun c => jsLower (jsToString c) == jsLower p)
        (distinctCountries db) = -1
    · rw [if_pos h1] at hok
      exact RouteResult.noConfusion hok
    · rw [if_neg h1] at hok
      cases hrec : recordsForCountry db p with
      | nil =>
          rw [hrec] at hok
          exact RouteResult.noConfusion hok
      | cons r0 rest =>
          rw [hrec] at hok
          injection hok with hd
          subst hd
          exact ⟨rfl, rfl⟩
  · intro db p d hok
    simp only [rankRoute] at hok
    by_cases h1 : jsIndexOf (distinctRanks db) (rankTarget p) = -1
    · rw [if_pos h1] at hok
      exact RouteResult.noConfusion hok
    · rw [if_neg h1] at hok
      by_cases h2 : recordsForRank db p = []
      · rw [if_pos h2] at hok
        exact RouteResult.noConfusion hok
      · rw [if_neg h2] at hok
        injection hok with hd
        subst hd
        rfl
  · intro db p d hok
    simp only [yearRoute] at hok
    by_cases h1 : jsIndexOf (distinctYears db) (yearTarget p) = -1
    · rw [if_pos h1] at hok
      exact RouteResult.noConfusion hok
    · rw [if_neg h1] at hok
      by_cases h2 : recordsForYear db p = []
      · rw [if_pos h2] at hok
        exact RouteResult.noConfusion hok
      · rw [if_neg h2] at hok
        injection hok with hd
        subst hd
        rfl

/-- Witness for the amended C7: the country route on the Chile seed data
embeds the serialized chart arrays built from its detail rows. -/
theorem claim_C7_witness :
    ∃ d, countryRoute chileDb "chile" = RouteResult.ok d
      ∧ (lookupField d "chartLabels"
          = some (some (jsonLabelsText (rowChartLabels (recordsForCountry chileDb "chile"))))
        ∧ lookupField d "chartData"
          = some (some (jsonValuesText (rowChartValues (recordsForCountry chileDb "chile"))))) :=
  ⟨_, rfl, claim_C7.2.2.1 chileDb "chile" _ rfl⟩

/-- Witness for C8: the top returned seed row matches 'chile'
case-insensitively. -/
theorem claim_C8_witness :
    countryMatches ⟨JSVal.str "Chile", JSVal.num 2021, JSVal.num 2, JSVal.num 8.3⟩ "chile"
      = true :=
  (claim_C8 chileDb "chile").1 _ (by decide)
